import Mathlib

/-!
Verification of the Ripple Thunder package-manager processor
(`thunder_package_manager.rs`) and the typed payload contracts
(`distributor_discovery.rs`, `fb_telemetry.rs`).

The Rust code is shallowly embedded: the shared
`active_operations: HashMap<String, Operation>` becomes an association
list with unique-key insert/erase semantics, asynchronous device calls
become explicit response parameters, and side effects (spawning a
timeout task, issuing a device call, issuing a cancel call) are
collected in an explicit effect list.
-/

namespace Ripple

/-- Minimal JSON value model for `serde_json::Value` as used by the
processor: message payloads, device-call responses and status events. -/
inductive Json where
  | null : Json
  | bool (b : Bool) : Json
  | str (s : String) : Json
  | num (n : Int) : Json
  | arr (xs : List Json) : Json
  | obj (fields : List (String × Json)) : Json

/-- `AppData` from the source: the version recorded for an operation. -/
structure AppData where
  version : String
deriving DecidableEq, Repr

/-- `AppData::new`. -/
def AppData.new (version : String) : AppData := ⟨version⟩

/-- `AppsOperationType`: install or uninstall. -/
inductive AppsOperationType where
  | Install : AppsOperationType
  | Uninstall : AppsOperationType
deriving DecidableEq, Repr

/-- `str::to_lowercase` as used by `AppsOperationType::from_str`:
lowercase every character (the status-event operation values are basic
latin). -/
def to_lowercase (s : String) : String := ⟨s.data.map Char.toLower⟩

/-- `AppsOperationType::from_str`: lowercases the input and accepts
exactly "install" and "uninstall"; anything else is an error. -/
def AppsOperationType.from_str (input : String) : Option AppsOperationType :=
  match to_lowercase input with
  | "install" => some AppsOperationType.Install
  | "uninstall" => some AppsOperationType.Uninstall
  | _ => none

/-- `Operation`: the value stored in the active-operations table. -/
structure Operation where
  durable_app_id : String
  operation_type : AppsOperationType
  app_data : AppData
deriving DecidableEq, Repr

/-- `Operation::new` (argument order as in the source). -/
def Operation.new (operation_type : AppsOperationType) (durable_app_id : String)
    (app_data : AppData) : Operation :=
  { durable_app_id := durable_app_id, operation_type := operation_type, app_data := app_data }

/-- `OperationStatus`: the closed set of device status variants. -/
inductive OperationStatus where
  | Succeeded | Failed | NotStarted | Downloading | Downloaded
  | DownloadFailed | Verifying | VerificationFailed | InstallationFailed
  | Cancelled | NotEnoughStorage | Unknown
deriving DecidableEq, Repr

/-- `OperationStatus::new`: total string-to-status mapping, defaulting
to `Unknown` on any unrecognized string. -/
def OperationStatus.new (s : String) : OperationStatus :=
  match s with
  | "Succeeded" => OperationStatus.Succeeded
  | "Failed" => OperationStatus.Failed
  | "NotStarted" => OperationStatus.NotStarted
  | "Downloading" => OperationStatus.Downloading
  | "Downloaded" => OperationStatus.Downloaded
  | "DownloadFailed" => OperationStatus.DownloadFailed
  | "Verifying" => OperationStatus.Verifying
  | "VerificationFailed" => OperationStatus.VerificationFailed
  | "InstallationFailed" => OperationStatus.InstallationFailed
  | "Cancelled" => OperationStatus.Cancelled
  | "NotEnoughStorage" => OperationStatus.NotEnoughStorage
  | "Unknown" => OperationStatus.Unknown
  | _ => OperationStatus.Unknown

/-- `OperationStatus::completed`: the terminal-status predicate. -/
def OperationStatus.completed : OperationStatus → Bool
  | OperationStatus.Succeeded => true
  | OperationStatus.Failed => true
  | OperationStatus.NotStarted => false
  | OperationStatus.Downloading => false
  | OperationStatus.Downloaded => false
  | OperationStatus.DownloadFailed => true
  | OperationStatus.Verifying => false
  | OperationStatus.VerificationFailed => true
  | OperationStatus.InstallationFailed => true
  | OperationStatus.Cancelled => true
  | OperationStatus.NotEnoughStorage => true
  | OperationStatus.Unknown => false

/-- `AppsOperationStatus`: decoded form of one status event. -/
structure AppsOperationStatus where
  handle : String
  operation : AppsOperationType
  app_type : String
  id : String
  version : String
  status : String
  details : String
deriving DecidableEq, Repr

/-- The `active_operations` table: `HashMap<String, Operation>` modelled
as an association list whose keys are kept unique by the operations
below. -/
abbrev ActiveOperations := List (String × Operation)

/-- Lookup in the table (observable content of `HashMap::get`). -/
def tableGet (t : ActiveOperations) (handle : String) : Option Operation :=
  (t.find? (fun p => p.1 == handle)).map (fun p => p.2)

/-- Removal of a key (state change of `HashMap::remove`). -/
def tableErase (t : ActiveOperations) (handle : String) : ActiveOperations :=
  t.filter (fun p => p.1 != handle)

/-- `HashMap::insert`: binds the key to the value, replacing any
previous binding. -/
def tableInsert (t : ActiveOperations) (handle : String) (op : Operation) :
    ActiveOperations :=
  (handle, op) :: tableErase t handle

/-- Observable side effects of the processor: spawning the per-handle
timeout task, calling the device install/uninstall method, calling the
device cancel method. -/
inductive Effect where
  | timerStart (handle : String) : Effect
  | deviceInstallCall : Effect
  | deviceUninstallCall : Effect
  | cancelCall (handle : String) : Effect
deriving DecidableEq, Repr

/-- `add_or_remove_operation`: attempts to remove `handle`; if nothing
was removed this is the first completion signal, so the operation is
inserted and a timeout task is armed; if an entry was removed this is
the second signal and nothing further happens. Returns the new table
and the emitted effects. (The Rust function returns the unit type.) -/
def add_or_remove_operation (t : ActiveOperations) (handle : String)
    (operation : Operation) : ActiveOperations × List Effect :=
  let removed := tableGet t handle
  let t' := tableErase t handle
  if removed.isNone then
    (tableInsert t' handle operation, [Effect.timerStart handle])
  else
    (t', [])

/-- Caller-visible return value of `add_or_remove_operation` in the
source: the Rust function's return type is `()`; it reports nothing to
its caller. -/
def add_or_remove_operation_ret (_t : ActiveOperations) (_handle : String)
    (_operation : Operation) : Unit := ()

/-- `operation_in_progress`: linear scan of the table for an entry with
the same operation type, app id and version; returns its handle. -/
def operation_in_progress (t : ActiveOperations)
    (operation_type : AppsOperationType) (app_id version : String) :
    Option String :=
  (t.find? (fun p =>
      operation_type == p.2.operation_type
        && app_id == p.2.durable_app_id
        && version == p.2.app_data.version)).map (fun p => p.1)

/-- Body of the task spawned by `start_operation_timer`, run after the
sleep expires: attempt to remove `handle`; if an entry was still present
the operation is an orphan and `cancel_operation` is called for it;
otherwise nothing happens. -/
def start_operation_timer_expiry (t : ActiveOperations) (handle : String) :
    ActiveOperations × List Effect :=
  let removed := tableGet t handle
  let t' := tableErase t handle
  if removed.isSome then
    (t', [Effect.cancelCall handle])
  else
    (t, [])

/-- `get_string_field`: read a field from a JSON object map; returns the
string if the field is present and a JSON string, and the empty string
otherwise. -/
def get_string_field (status : List (String × Json)) (field_name : String) :
    String :=
  match (status.find? (fun p => p.1 == field_name)).map (fun p => p.2) with
  | some (Json.str field_value) => field_value
  | _ => ""

/-- One iteration of the listener loop spawned in `init`: decode the
message as an object, parse the `operation` field (dropping the message
if it does not parse), build the `AppsOperationStatus`, and feed
`add_or_remove_operation` only when the status is terminal. -/
def process_message (t : ActiveOperations) (message : Json) :
    ActiveOperations × List Effect :=
  match message with
  | Json.obj status_map =>
    match AppsOperationType.from_str (get_string_field status_map "operation") with
    | none => (t, [])
    | some operation_type =>
      let operation_status : AppsOperationStatus :=
        { handle := get_string_field status_map "handle"
          operation := operation_type
          app_type := get_string_field status_map "type"
          id := get_string_field status_map "id"
          version := get_string_field status_map "version"
          status := get_string_field status_map "status"
          details := get_string_field status_map "details" }
      if (OperationStatus.new operation_status.status).completed then
        add_or_remove_operation t operation_status.handle
          (Operation.new operation_status.operation operation_status.id
            (AppData.new operation_status.version))
      else
        (t, [])
  | _ => (t, [])

/-- The listener loop over a stream of received messages: each message
is processed and the loop continues with the next one; it never breaks
out on a malformed message. -/
def run_listener (t : ActiveOperations) : List Json → ActiveOperations
  | [] => t
  | message :: rest => run_listener (process_message t message).1 rest

/-- Modelled from the spec: `InstalledApp` is defined outside the
provided sources; the spec uses only its app id and version. -/
structure InstalledApp where
  id : String
  version : String
deriving DecidableEq, Repr

/-- Modelled from the spec: `AppMetadata` is defined outside the
provided sources; the install path uses its id, version, uri and
title. -/
structure AppMetadata where
  id : String
  version : String
  uri : String
  title : String
deriving DecidableEq, Repr

/-- Modelled from the spec: `FireboltPermissions` is defined outside the
provided sources; it carries the capability list extracted from the
permission blob. -/
structure FireboltPermissions where
  capabilities : List String
deriving DecidableEq, Repr

/-- `RippleError` as used by this processor. -/
inductive RippleError where
  | ProcessorError : RippleError
deriving DecidableEq, Repr

/-- The `ExtnResponse` variants produced by this processor. -/
inductive ExtnResponse where
  | InstalledApps (apps : List InstalledApp) : ExtnResponse
  | String (handle : String) : ExtnResponse
  | Permission (capabilities : List String) : ExtnResponse
  | Error (e : RippleError) : ExtnResponse
deriving DecidableEq, Repr

/-- `serde_json::from_value::<String>`: succeeds exactly on a JSON
string. -/
def decodeString : Json → Option String
  | Json.str s => some s
  | _ => none

/-- Modelled from the spec: serde decoding of one `InstalledApp` (its
field set is outside the provided sources); an object carrying string
fields `id` and `version`. -/
def decodeInstalledApp : Json → Option InstalledApp
  | Json.obj fields =>
    match (fields.find? (fun p => p.1 == "id")).map (fun p => p.2),
        (fields.find? (fun p => p.1 == "version")).map (fun p => p.2) with
    | some (Json.str id), some (Json.str version) => some ⟨id, version⟩
    | _, _ => none
  | _ => none

/-- Modelled from the spec: `serde_json::from_value::<Vec<InstalledApp>>`,
a JSON array each element of which decodes as an `InstalledApp`. -/
def decodeInstalledApps : Json → Option (List InstalledApp)
  | Json.arr xs => xs.mapM decodeInstalledApp
  | _ => none

/-- `Metadata` from the source (`appname`, `type`, `url`). -/
structure Metadata where
  appname : String
  _type : String
  url : String
deriving DecidableEq, Repr

/-- `KeyValuePair` from the source. -/
structure KeyValuePair where
  key : String
  value : String
deriving DecidableEq, Repr

/-- `ThunderAppMetadata` from the source. -/
structure ThunderAppMetadata where
  metadata : Metadata
  resources : List KeyValuePair
deriving DecidableEq, Repr

/-- Serde decoding of `Metadata`: object with string fields `appname`,
`type` (renamed), `url`. -/
def decodeMetadata : Json → Option Metadata
  | Json.obj fields =>
    match (fields.find? (fun p => p.1 == "appname")).map (fun p => p.2),
        (fields.find? (fun p => p.1 == "type")).map (fun p => p.2),
        (fields.find? (fun p => p.1 == "url")).map (fun p => p.2) with
    | some (Json.str appname), some (Json.str t), some (Json.str url) =>
      some ⟨appname, t, url⟩
    | _, _, _ => none
  | _ => none

/-- Serde decoding of `KeyValuePair`: object with string fields `key`
and `value`. -/
def decodeKeyValuePair : Json → Option KeyValuePair
  | Json.obj fields =>
    match (fields.find? (fun p => p.1 == "key")).map (fun p => p.2),
        (fields.find? (fun p => p.1 == "value")).map (fun p => p.2) with
    | some (Json.str key), some (Json.str value) => some ⟨key, value⟩
    | _, _ => none
  | _ => none

/-- Serde decoding of `ThunderAppMetadata`: object with a `metadata`
object and a `resources` array of key-value pairs. -/
def decodeThunderAppMetadata : Json → Option ThunderAppMetadata
  | Json.obj fields =>
    match (fields.find? (fun p => p.1 == "metadata")).map (fun p => p.2),
        (fields.find? (fun p => p.1 == "resources")).map (fun p => p.2) with
    | some m, some (Json.arr rs) =>
      match decodeMetadata m, rs.mapM decodeKeyValuePair with
      | some metadata, some resources => some ⟨metadata, resources⟩
      | _, _ => none
    | _, _ => none
  | _ => none

/-- `get_apps_list`: issue the `getlist` device call (its response is
the parameter) and decode it into the installed-apps list, answering a
processor error on decode failure. -/
def get_apps_list (device_response : Json) : ExtnResponse :=
  match decodeInstalledApps device_response with
  | some apps => ExtnResponse.InstalledApps apps
  | none => ExtnResponse.Error RippleError.ProcessorError

/-- `install_app`: coalesce against an in-progress install for the same
app and version (responding with the existing handle and issuing no
device call); otherwise issue the install device call, and on a decoded
handle register it with `add_or_remove_operation`, on decode failure
answer a processor error. Returns the response sent to the requester,
the new table, and the effects in order. -/
def install_app (t : ActiveOperations) (app : AppMetadata)
    (device_response : Json) : ExtnResponse × ActiveOperations × List Effect :=
  match operation_in_progress t AppsOperationType.Install app.id app.version with
  | some handle => (ExtnResponse.String handle, t, [])
  | none =>
    match decodeString device_response with
    | some handle =>
      let operation := Operation.new AppsOperationType.Install app.id
        (AppData.new app.version)
      let step := add_or_remove_operation t handle operation
      (ExtnResponse.String handle, step.1, Effect.deviceInstallCall :: step.2)
    | none =>
      (ExtnResponse.Error RippleError.ProcessorError, t, [Effect.deviceInstallCall])

/-- `uninstall_app`: symmetric to `install_app`, keyed on the uninstall
operation type. -/
def uninstall_app (t : ActiveOperations) (app : InstalledApp)
    (device_response : Json) : ExtnResponse × ActiveOperations × List Effect :=
  match operation_in_progress t AppsOperationType.Uninstall app.id app.version with
  | some handle => (ExtnResponse.String handle, t, [])
  | none =>
    match decodeString device_response with
    | some handle =>
      let operation := Operation.new AppsOperationType.Uninstall app.id
        (AppData.new app.version)
      let step := add_or_remove_operation t handle operation
      (ExtnResponse.String handle, step.1, Effect.deviceUninstallCall :: step.2)
    | none =>
      (ExtnResponse.Error RippleError.ProcessorError, t, [Effect.deviceUninstallCall])

/-- `decode_permissions`: base64-decode the blob then deserialize the
permissions, failing if either step fails. The base64 decoder and the
permissions deserializer live outside the provided sources and are
passed as parameters. -/
def decode_permissions (b64decode : String → Option String)
    (parsePermissions : String → Option FireboltPermissions)
    (perms_encoded : String) : Option FireboltPermissions :=
  match b64decode perms_encoded with
  | none => none
  | some perms_str => parsePermissions perms_str

/-- `get_firebolt_permissions`: resolve the app's version through
`get_apps_list`, issue the `getmetadata` device call (its response is a
parameter), locate the resource keyed "firebolt", decode its value, and
turn every failure along the way into a processor error. -/
def get_firebolt_permissions (b64decode : String → Option String)
    (parsePermissions : String → Option FireboltPermissions)
    (app_id : String) (apps_response : Json) (metadata_response : Json) :
    ExtnResponse :=
  match get_apps_list apps_response with
  | ExtnResponse.InstalledApps apps =>
    match apps.find? (fun app => app.id == app_id) with
    | none => ExtnResponse.Error RippleError.ProcessorError
    | some _ =>
      match decodeThunderAppMetadata metadata_response with
      | some metadata =>
        match metadata.resources.find? (fun resource => resource.key == "firebolt") with
        | some r =>
          match decode_permissions b64decode parsePermissions r.value with
          | some permissions => ExtnResponse.Permission permissions.capabilities
          | none => ExtnResponse.Error RippleError.ProcessorError
        | none => ExtnResponse.Error RippleError.ProcessorError
      | none => ExtnResponse.Error RippleError.ProcessorError
  | _ => ExtnResponse.Error RippleError.ProcessorError

/-- Result enum from the spec's engine contract. -/
inductive RegisterResult where
  | Registered : RegisterResult
  | Resolved : RegisterResult
deriving DecidableEq, Repr

/-- Modelled from the spec:
`register_or_resolve(handle, operation) -> Resolved | Registered` —
atomically attempt to remove the handle; if an entry existed return
`Resolved` with no timer; if none existed insert the operation, arm a
timeout, and return `Registered`. -/
def register_or_resolve_spec (t : ActiveOperations) (handle : String)
    (operation : Operation) : RegisterResult × ActiveOperations × List Effect :=
  let removed := tableGet t handle
  let t' := tableErase t handle
  if removed.isNone then
    (RegisterResult.Registered, tableInsert t' handle operation,
      [Effect.timerStart handle])
  else
    (RegisterResult.Resolved, t', [])

/-- Events of the correlation engine for one handle: a completion signal
(call return or terminal event) carrying the operation it builds, or the
per-handle timeout firing. -/
inductive HEvent where
  | signal (op : Operation) : HEvent
  | timeout : HEvent
deriving DecidableEq, Repr

/-- One engine step for handle `h`: a signal goes through
`add_or_remove_operation`; the timeout runs the timer-expiry body. -/
def hstep (h : String) (t : ActiveOperations) : HEvent → ActiveOperations
  | HEvent.signal op => (add_or_remove_operation t h op).1
  | HEvent.timeout => (start_operation_timer_expiry t h).1

/-- The table reached from `t` after a sequence of engine events for
handle `h`. -/
def hrun (h : String) (t : ActiveOperations) (tr : List HEvent) :
    ActiveOperations :=
  tr.foldl (hstep h) t

/-- Modelled from the spec: `ContentAccessListSetParams` is defined
outside the provided sources; modelled as an opaque payload value. -/
structure ContentAccessListSetParams where
  raw : String
deriving DecidableEq, Repr

/-- Modelled from the spec: `ClearContentSetParams` is defined outside
the provided sources; modelled as an opaque payload value. -/
structure ClearContentSetParams where
  raw : String
deriving DecidableEq, Repr

/-- Modelled from the spec: `SignInRequestParams` is defined outside the
provided sources; modelled as an opaque payload value. -/
structure SignInRequestParams where
  raw : String
deriving DecidableEq, Repr

/-- Modelled from the spec: `MediaEventsAccountLinkRequestParams` is
defined outside the provided sources; modelled as an opaque payload
value. -/
structure MediaEventsAccountLinkRequestParams where
  raw : String
deriving DecidableEq, Repr

/-- `DiscoveryRequest` from `distributor_discovery.rs`. -/
inductive DiscoveryRequest where
  | SetContentAccess (p : ContentAccessListSetParams) : DiscoveryRequest
  | ClearContent (p : ClearContentSetParams) : DiscoveryRequest
  | SignIn (p : SignInRequestParams) : DiscoveryRequest
deriving DecidableEq, Repr

/-- `MediaEventRequest` from `distributor_discovery.rs`. -/
inductive MediaEventRequest where
  | MediaEventAccountLink (p : MediaEventsAccountLinkRequestParams) : MediaEventRequest
deriving DecidableEq, Repr

/-- `AppLoadStart` from `fb_telemetry.rs`. -/
structure AppLoadStart where
  app_id : String
  app_version : Option String
  start_time : Int
  ripple_session_id : String
  ripple_version : String
  ripple_context : Option String
deriving DecidableEq, Repr

/-- `AppLoadStop` from `fb_telemetry.rs`. -/
structure AppLoadStop where
  app_id : String
  stop_time : Int
  ripple_session_id : String
  app_session_id : Option String
  success : Bool
deriving DecidableEq, Repr

/-- `AppSDKLoaded` from `fb_telemetry.rs`. -/
structure AppSDKLoaded where
  app_id : String
  stop_time : Int
  ripple_session_id : String
  sdk_name : String
  app_session_id : Option String
deriving DecidableEq, Repr

/-- `TelemetryAppError` from `fb_telemetry.rs` (its optional parameter
map is modelled as an association list). -/
structure TelemetryAppError where
  app_id : String
  error_type : String
  code : String
  description : String
  visible : Bool
  parameters : Option (List (String × String))
  ripple_session_id : String
deriving DecidableEq, Repr

/-- `TelemetrySystemError` from `fb_telemetry.rs`. -/
structure TelemetrySystemError where
  error_name : String
  component : String
  context : Option String
  ripple_session_id : String
  ripple_version : String
  ripple_context : Option String
deriving DecidableEq, Repr

/-- `TelemetrySignIn` from `fb_telemetry.rs`. -/
structure TelemetrySignIn where
  app_id : String
  ripple_session_id : String
  app_session_id : Option String
deriving DecidableEq, Repr

/-- `TelemetrySignOut` from `fb_telemetry.rs`. -/
structure TelemetrySignOut where
  app_id : String
  ripple_session_id : String
  app_session_id : Option String
deriving DecidableEq, Repr

/-- `InternalInitialize` from `fb_telemetry.rs`. -/
structure InternalInitialize where
  app_id : String
  ripple_session_id : String
  app_session_id : Option String
  semantic_version : String
deriving DecidableEq, Repr

/-- `FireboltInteraction` from `fb_telemetry.rs`. -/
structure FireboltInteraction where
  app_id : String
  method : String
  params : Option String
  tt : Int
  success : Bool
  ripple_session_id : String
  app_session_id : Option String
deriving DecidableEq, Repr

/-- `TelemetryPayload` from `fb_telemetry.rs`. -/
inductive TelemetryPayload where
  | AppLoadStart (p : AppLoadStart) : TelemetryPayload
  | AppLoadStop (p : AppLoadStop) : TelemetryPayload
  | AppSDKLoaded (p : AppSDKLoaded) : TelemetryPayload
  | AppError (p : TelemetryAppError) : TelemetryPayload
  | SystemError (p : TelemetrySystemError) : TelemetryPayload
  | SignIn (p : TelemetrySignIn) : TelemetryPayload
  | SignOut (p : TelemetrySignOut) : TelemetryPayload
  | InternalInitialize (p : InternalInitialize) : TelemetryPayload
  | FireboltInteraction (p : FireboltInteraction) : TelemetryPayload
deriving DecidableEq, Repr

/-- `OperationalMetricRequest` from `fb_telemetry.rs`. -/
inductive OperationalMetricRequest where
  | Subscribe : OperationalMetricRequest
  | UnSubscribe : OperationalMetricRequest
deriving DecidableEq, Repr

/-- Modelled from the spec: `DistributorRequest` is defined outside the
provided sources; the variants used by the payload impls plus an
`OtherVariant` covering the impls' wildcard branches. -/
inductive DistributorRequest where
  | Discovery (d : DiscoveryRequest) : DistributorRequest
  | MediaEvent (m : MediaEventRequest) : DistributorRequest
  | OtherVariant : DistributorRequest
deriving DecidableEq, Repr

/-- Modelled from the spec: `ExtnRequest` is defined outside the
provided sources; the variants used by the payload impls plus an
`OtherVariant` covering the impls' wildcard branches. -/
inductive ExtnRequest where
  | Distributor (v : DistributorRequest) : ExtnRequest
  | OperationalMetricsRequest (r : OperationalMetricRequest) : ExtnRequest
  | OtherVariant : ExtnRequest
deriving DecidableEq, Repr

/-- Modelled from the spec: `ExtnEvent` is defined outside the provided
sources; the variant used by the payload impls plus an `OtherVariant`
covering the impls' wildcard branches. -/
inductive ExtnEvent where
  | OperationalMetrics (t : TelemetryPayload) : ExtnEvent
  | OtherVariant : ExtnEvent
deriving DecidableEq, Repr

/-- Modelled from the spec: `ExtnPayload` is defined outside the
provided sources; the request and event variants used by the payload
impls plus an `OtherVariant` covering the impls' wildcard branches. -/
inductive ExtnPayload where
  | Request (r : ExtnRequest) : ExtnPayload
  | Event (e : ExtnEvent) : ExtnPayload
  | OtherVariant : ExtnPayload
deriving DecidableEq, Repr

namespace DiscoveryRequest

/-- `ExtnPayloadProvider::get_extn_payload` for `DiscoveryRequest`. -/
def get_extn_payload (d : DiscoveryRequest) : ExtnPayload :=
  ExtnPayload.Request (ExtnRequest.Distributor (DistributorRequest.Discovery d))

/-- `ExtnPayloadProvider::get_from_payload` for `DiscoveryRequest`. -/
def get_from_payload : ExtnPayload → Option DiscoveryRequest
  | ExtnPayload.Request (ExtnRequest.Distributor (DistributorRequest.Discovery d)) =>
    some d
  | _ => none

end DiscoveryRequest

namespace MediaEventRequest

/-- `ExtnPayloadProvider::get_extn_payload` for `MediaEventRequest`. -/
def get_extn_payload (m : MediaEventRequest) : ExtnPayload :=
  ExtnPayload.Request (ExtnRequest.Distributor (DistributorRequest.MediaEvent m))

/-- `ExtnPayloadProvider::get_from_payload` for `MediaEventRequest`. -/
def get_from_payload : ExtnPayload → Option MediaEventRequest
  | ExtnPayload.Request (ExtnRequest.Distributor (DistributorRequest.MediaEvent m)) =>
    some m
  | _ => none

end MediaEventRequest

namespace TelemetryPayload

/-- `ExtnPayloadProvider::get_extn_payload` for `TelemetryPayload`. -/
def get_extn_payload (t : TelemetryPayload) : ExtnPayload :=
  ExtnPayload.Event (ExtnEvent.OperationalMetrics t)

/-- `ExtnPayloadProvider::get_from_payload` for `TelemetryPayload`. -/
def get_from_payload : ExtnPayload → Option TelemetryPayload
  | ExtnPayload.Event (ExtnEvent.OperationalMetrics r) => some r
  | _ => none

end TelemetryPayload

namespace OperationalMetricRequest

/-- `ExtnPayloadProvider::get_extn_payload` for
`OperationalMetricRequest`. -/
def get_extn_payload (r : OperationalMetricRequest) : ExtnPayload :=
  ExtnPayload.Request (ExtnRequest.OperationalMetricsRequest r)

/-- `ExtnPayloadProvider::get_from_payload` for
`OperationalMetricRequest`. -/
def get_from_payload : ExtnPayload → Option OperationalMetricRequest
  | ExtnPayload.Request (ExtnRequest.OperationalMetricsRequest r) => some r
  | _ => none

end OperationalMetricRequest

/-! Helper lemmas about the table operations. -/

theorem tableGet_cons (a : String × Operation) (t : ActiveOperations)
    (h' : String) :
    tableGet (a :: t) h' = if a.1 = h' then some a.2 else tableGet t h' := by
  simp only [tableGet]
  by_cases hh : a.1 = h'
  · rw [List.find?_cons_of_pos _ (by simp [hh]), if_pos hh]
    rfl
  · rw [List.find?_cons_of_neg _ (by simp [hh]), if_neg hh]

theorem tableErase_cons (a : String × Operation) (t : ActiveOperations)
    (h : String) :
    tableErase (a :: t) h =
      if a.1 = h then tableErase t h else a :: tableErase t h := by
  simp only [tableErase, List.filter_cons]
  by_cases hh : a.1 = h
  · simp [hh]
  · simp [hh]

theorem tableGet_tableErase (t : ActiveOperations) (h h' : String) :
    tableGet (tableErase t h) h' = if h' = h then none else tableGet t h' := by
  induction t with
  | nil =>
    by_cases hh : h' = h <;> simp [tableGet, tableErase, hh]
  | cons a t ih =>
    rw [tableErase_cons]
    by_cases hah : a.1 = h
    · rw [if_pos hah, ih, tableGet_cons]
      by_cases hh : h' = h
      · simp [hh]
      · rw [if_neg hh, if_neg hh,
          if_neg (show ¬a.1 = h' by intro e; exact hh (e ▸ hah))]
    · rw [if_neg hah, tableGet_cons, tableGet_cons]
      by_cases haa : a.1 = h'
      · rw [if_pos haa, if_pos haa, if_neg (fun e => hah (haa.trans e))]
      · rw [if_neg haa, if_neg haa, ih]

theorem tableGet_tableInsert_self (t : ActiveOperations) (h : String)
    (op : Operation) : tableGet (tableInsert t h op) h = some op := by
  rw [tableInsert, tableGet_cons, if_pos rfl]

theorem tableErase_of_get_none (t : ActiveOperations) (h : String)
    (hg : tableGet t h = none) : tableErase t h = t := by
  induction t with
  | nil => rfl
  | cons a t ih =>
    rw [tableGet_cons] at hg
    by_cases hah : a.1 = h
    · rw [if_pos hah] at hg
      simp at hg
    · rw [if_neg hah] at hg
      rw [tableErase_cons, if_neg hah, ih hg]

theorem add_or_remove_of_none (t : ActiveOperations) (h : String)
    (op : Operation) (hg : tableGet t h = none) :
    add_or_remove_operation t h op = ((h, op) :: t, [Effect.timerStart h]) := by
  simp only [add_or_remove_operation, hg, Option.isNone_none, if_pos]
  rw [tableErase_of_get_none t h hg]
  simp [tableInsert, tableErase_of_get_none t h hg]

theorem add_or_remove_of_some (t : ActiveOperations) (h : String)
    (op : Operation) (hg : (tableGet t h).isSome) :
    add_or_remove_operation t h op = (tableErase t h, []) := by
  simp only [add_or_remove_operation]
  rw [if_neg (by simp only [Option.isNone_iff_eq_none]; intro e; rw [e] at hg; simp at hg)]

theorem expiry_of_some (t : ActiveOperations) (h : String)
    (hg : (tableGet t h).isSome) :
    start_operation_timer_expiry t h = (tableErase t h, [Effect.cancelCall h]) := by
  simp only [start_operation_timer_expiry]
  rw [if_pos hg]

theorem expiry_of_none (t : ActiveOperations) (h : String)
    (hg : tableGet t h = none) :
    start_operation_timer_expiry t h = (t, []) := by
  simp only [start_operation_timer_expiry]
  rw [if_neg (by rw [hg]; simp)]

theorem add_or_remove_get_self (t : ActiveOperations) (h : String)
    (op : Operation) :
    tableGet (add_or_remove_operation t h op).1 h =
      if (tableGet t h).isSome then none else some op := by
  by_cases hg : (tableGet t h).isSome
  · rw [add_or_remove_of_some t h op hg, if_pos hg, tableGet_tableErase, if_pos rfl]
  · have hn : tableGet t h = none := by
      cases e : tableGet t h
      · rfl
      · rw [e] at hg; simp at hg
    rw [add_or_remove_of_none t h op hn, if_neg hg]
    simp [tableGet, List.find?]

theorem expiry_get_self (t : ActiveOperations) (h : String) :
    tableGet (start_operation_timer_expiry t h).1 h = none := by
  by_cases hg : (tableGet t h).isSome
  · rw [expiry_of_some t h hg, tableGet_tableErase, if_pos rfl]
  · have hn : tableGet t h = none := by
      cases e : tableGet t h
      · rfl
      · rw [e] at hg; simp at hg
    rw [expiry_of_none t h hn]
    exact hn

theorem hrun_append_one (h : String) (t : ActiveOperations)
    (tr : List HEvent) (e : HEvent) :
    hrun h t (tr ++ [e]) = hstep h (hrun h t tr) e := by
  simp [hrun, List.foldl_append]

theorem add_or_remove_get_self_none (t : ActiveOperations) (h : String)
    (op : Operation) (hg : tableGet t h = none) :
    tableGet (add_or_remove_operation t h op).1 h = some op := by
  rw [add_or_remove_get_self, hg]
  rfl

theorem add_or_remove_get_self_some (t : ActiveOperations) (h : String)
    (op : Operation) (hg : (tableGet t h).isSome) :
    tableGet (add_or_remove_operation t h op).1 h = none := by
  rw [add_or_remove_get_self, if_pos hg]

/-- Claim C1: `add_or_remove_operation` is commutative in signal order.
Starting from a table with no entry for `h`, calling it once for each of
the two completion signals — in either order — first inserts the entry
and then removes it, leaving the table with no entry for `h`. -/
theorem add_or_remove_operation_signal_order_commutative
    (t : ActiveOperations) (h : String) (op1 op2 : Operation)
    (hEmpty : tableGet t h = none) :
    tableGet (add_or_remove_operation t h op1).1 h = some op1 ∧
    tableGet (add_or_remove_operation
      (add_or_remove_operation t h op1).1 h op2).1 h = none ∧
    tableGet (add_or_remove_operation t h op2).1 h = some op2 ∧
    tableGet (add_or_remove_operation
      (add_or_remove_operation t h op2).1 h op1).1 h = none := by
  have g1 := add_or_remove_get_self_none t h op1 hEmpty
  have g2 := add_or_remove_get_self_none t h op2 hEmpty
  refine ⟨g1, ?_, g2, ?_⟩
  · exact add_or_remove_get_self_some _ h op2 (by rw [g1]; rfl)
  · exact add_or_remove_get_self_some _ h op1 (by rw [g2]; rfl)

/-- Claim C1 witness: the commutativity theorem applied to the empty
table, handle "H1" and a concrete install operation arriving via both
signals. -/
theorem add_or_remove_operation_signal_order_commutative_witness :
    tableGet [] "H1" = none ∧
    (tableGet (add_or_remove_operation [] "H1"
        (Operation.new AppsOperationType.Install "app1" (AppData.new "1.0"))).1
        "H1" =
      some (Operation.new AppsOperationType.Install "app1" (AppData.new "1.0")) ∧
    tableGet (add_or_remove_operation
        (add_or_remove_operation [] "H1"
          (Operation.new AppsOperationType.Install "app1" (AppData.new "1.0"))).1
        "H1"
        (Operation.new AppsOperationType.Install "app1" (AppData.new "1.0"))).1
        "H1" = none ∧
    tableGet (add_or_remove_operation [] "H1"
        (Operation.new AppsOperationType.Install "app1" (AppData.new "1.0"))).1
        "H1" =
      some (Operation.new AppsOperationType.Install "app1" (AppData.new "1.0")) ∧
    tableGet (add_or_remove_operation
        (add_or_remove_operation [] "H1"
          (Operation.new AppsOperationType.Install "app1" (AppData.new "1.0"))).1
        "H1"
        (Operation.new AppsOperationType.Install "app1" (AppData.new "1.0"))).1
        "H1" = none) :=
  ⟨rfl, add_or_remove_operation_signal_order_commutative [] "H1"
    (Operation.new AppsOperationType.Install "app1" (AppData.new "1.0"))
    (Operation.new AppsOperationType.Install "app1" (AppData.new "1.0")) rfl⟩

/-- Claim C5: the timeout-task body. When the handle is still present at
expiry it removes the entry (leaving no entry for the handle) and issues
exactly one cancel call for it; when the handle is absent it changes
nothing and issues no cancel call. -/
theorem timer_expiry_orphan_recovery (t1 t2 : ActiveOperations)
    (h1 h2 : String) (hp : (tableGet t1 h1).isSome)
    (ha : tableGet t2 h2 = none) :
    start_operation_timer_expiry t1 h1 =
      (tableErase t1 h1, [Effect.cancelCall h1]) ∧
    tableGet (start_operation_timer_expiry t1 h1).1 h1 = none ∧
    start_operation_timer_expiry t2 h2 = (t2, []) := by
  refine ⟨expiry_of_some t1 h1 hp, ?_, expiry_of_none t2 h2 ha⟩
  rw [expiry_of_some t1 h1 hp, tableGet_tableErase, if_pos rfl]

/-- Claim C5 witness: the timeout theorem applied to a table holding
"H1" (orphan removed, one cancel issued) and to an empty table for "H2"
(no-op). -/
theorem timer_expiry_orphan_recovery_witness :
    ((tableGet [("H1",
        Operation.new AppsOperationType.Install "app1" (AppData.new "1.0"))]
        "H1").isSome ∧
      tableGet [] "H2" = none) ∧
    (start_operation_timer_expiry [("H1",
        Operation.new AppsOperationType.Install "app1" (AppData.new "1.0"))]
        "H1" =
      (tableErase [("H1",
        Operation.new AppsOperationType.Install "app1" (AppData.new "1.0"))]
        "H1", [Effect.cancelCall "H1"]) ∧
    tableGet (start_operation_timer_expiry [("H1",
        Operation.new AppsOperationType.Install "app1" (AppData.new "1.0"))]
        "H1").1 "H1" = none ∧
    start_operation_timer_expiry [] "H2" = ([], [])) :=
  ⟨⟨rfl, rfl⟩, timer_expiry_orphan_recovery
    [("H1", Operation.new AppsOperationType.Install "app1" (AppData.new "1.0"))]
    [] "H1" "H2" rfl rfl⟩

/-- Claim C6: duplicate-signal re-arm. A further call of
`add_or_remove_operation` for a handle with no entry (e.g. an
already-resolved handle receiving a repeated terminal event) inserts a
fresh entry and arms a new timeout task — it is not a no-op. -/
theorem add_or_remove_operation_rearm (t : ActiveOperations) (h : String)
    (op : Operation) (hEmpty : tableGet t h = none) :
    add_or_remove_operation t h op = ((h, op) :: t, [Effect.timerStart h]) ∧
    tableGet (add_or_remove_operation t h op).1 h = some op := by
  refine ⟨add_or_remove_of_none t h op hEmpty, ?_⟩
  exact add_or_remove_get_self_none t h op hEmpty

/-- Claim C6 witness: the re-arm theorem applied to the empty table
(an already-resolved handle) and a repeated terminal event for "H1". -/
theorem add_or_remove_operation_rearm_witness :
    tableGet [] "H1" = none ∧
    (add_or_remove_operation [] "H1"
        (Operation.new AppsOperationType.Install "app1" (AppData.new "1.0")) =
      ([("H1",
        Operation.new AppsOperationType.Install "app1" (AppData.new "1.0"))],
        [Effect.timerStart "H1"]) ∧
    tableGet (add_or_remove_operation [] "H1"
        (Operation.new AppsOperationType.Install "app1" (AppData.new "1.0"))).1
        "H1" =
      some (Operation.new AppsOperationType.Install "app1" (AppData.new "1.0"))) :=
  ⟨rfl, add_or_remove_operation_rearm [] "H1"
    (Operation.new AppsOperationType.Install "app1" (AppData.new "1.0")) rfl⟩

/-- Claim C3 counterexample: the spec's `register_or_resolve` contract
demands distinct return values (`Resolved` when an entry existed,
`Registered` when none existed), but the source's
`add_or_remove_operation` returns the unit type: at a table holding
"H1" and at the empty table its caller-visible return value is
identical, so it does not report a two-valued outcome. -/
theorem add_or_remove_operation_result_counterexample :
    (register_or_resolve_spec
        [("H1", Operation.new AppsOperationType.Install "app1" (AppData.new "1.0"))]
        "H1"
        (Operation.new AppsOperationType.Install "app1" (AppData.new "1.0"))).1 ≠
      (register_or_resolve_spec [] "H1"
        (Operation.new AppsOperationType.Install "app1" (AppData.new "1.0"))).1 ∧
    add_or_remove_operation_ret
        [("H1", Operation.new AppsOperationType.Install "app1" (AppData.new "1.0"))]
        "H1"
        (Operation.new AppsOperationType.Install "app1" (AppData.new "1.0")) =
      add_or_remove_operation_ret [] "H1"
        (Operation.new AppsOperationType.Install "app1" (AppData.new "1.0")) :=
  ⟨by decide, rfl⟩

/-- Claim C3 (amended): `add_or_remove_operation` returns nothing to its
caller; the registration/resolution outcome is only internal. Starting
from a table with no entry for `h`, the first call takes the
registration branch (inserts the entry and arms a timer) and the second
call takes the resolution branch (removes the entry, no timer), in both
signal orderings. -/
theorem add_or_remove_operation_branch_outcomes (t : ActiveOperations)
    (h : String) (op1 op2 : Operation) (hEmpty : tableGet t h = none) :
    (add_or_remove_operation t h op1).2 = [Effect.timerStart h] ∧
    tableGet (add_or_remove_operation t h op1).1 h = some op1 ∧
    (add_or_remove_operation (add_or_remove_operation t h op1).1 h op2).2 = [] ∧
    tableGet (add_or_remove_operation
      (add_or_remove_operation t h op1).1 h op2).1 h = none ∧
    (add_or_remove_operation t h op2).2 = [Effect.timerStart h] ∧
    (add_or_remove_operation (add_or_remove_operation t h op2).1 h op1).2 = [] := by
  have g1 := add_or_remove_get_self_none t h op1 hEmpty
  have g2 := add_or_remove_get_self_none t h op2 hEmpty
  refine ⟨?_, g1, ?_, ?_, ?_, ?_⟩
  · rw [add_or_remove_of_none t h op1 hEmpty]
  · rw [add_or_remove_of_some _ h op2 (by rw [g1]; rfl)]
  · exact add_or_remove_get_self_some _ h op2 (by rw [g1]; rfl)
  · rw [add_or_remove_of_none t h op2 hEmpty]
  · rw [add_or_remove_of_some _ h op1 (by rw [g2]; rfl)]

/-- Claim C3 witness: the amended branch-outcome theorem applied to the
empty table and handle "H1" with a concrete operation for both
signals. -/
theorem add_or_remove_operation_branch_outcomes_witness :
    tableGet [] "H1" = none ∧
    ((add_or_remove_operation [] "H1"
        (Operation.new AppsOperationType.Install "app1" (AppData.new "1.0"))).2 =
      [Effect.timerStart "H1"] ∧
    tableGet (add_or_remove_operation [] "H1"
        (Operation.new AppsOperationType.Install "app1" (AppData.new "1.0"))).1
        "H1" =
      some (Operation.new AppsOperationType.Install "app1" (AppData.new "1.0")) ∧
    (add_or_remove_operation
        (add_or_remove_operation [] "H1"
          (Operation.new AppsOperationType.Install "app1" (AppData.new "1.0"))).1
        "H1"
        (Operation.new AppsOperationType.Install "app1" (AppData.new "1.0"))).2 =
      [] ∧
    tableGet (add_or_remove_operation
        (add_or_remove_operation [] "H1"
          (Operation.new AppsOperationType.Install "app1" (AppData.new "1.0"))).1
        "H1"
        (Operation.new AppsOperationType.Install "app1" (AppData.new "1.0"))).1
        "H1" = none ∧
    (add_or_remove_operation [] "H1"
        (Operation.new AppsOperationType.Install "app1" (AppData.new "1.0"))).2 =
      [Effect.timerStart "H1"] ∧
    (add_or_remove_operation
        (add_or_remove_operation [] "H1"
          (Operation.new AppsOperationType.Install "app1" (AppData.new "1.0"))).1
        "H1"
        (Operation.new AppsOperationType.Install "app1" (AppData.new "1.0"))).2 =
      []) :=
  ⟨rfl, add_or_remove_operation_branch_outcomes [] "H1"
    (Operation.new AppsOperationType.Install "app1" (AppData.new "1.0"))
    (Operation.new AppsOperationType.Install "app1" (AppData.new "1.0")) rfl⟩

/-- Claim C7: status classification. The string-to-status mapping sends
every string outside the twelve named status strings to `Unknown`
(hence every unrecognized string is classified non-terminal), and
`completed` is true exactly on the seven terminal statuses and false
exactly on the five non-terminal ones. -/
theorem operation_status_classification (s : String)
    (hs : s ∉ ["Succeeded", "Failed", "NotStarted", "Downloading",
      "Downloaded", "DownloadFailed", "Verifying", "VerificationFailed",
      "InstallationFailed", "Cancelled", "NotEnoughStorage", "Unknown"]) :
    OperationStatus.new s = OperationStatus.Unknown ∧
    (OperationStatus.new s).completed = false ∧
    (∀ st : OperationStatus, st.completed = true ↔
      st ∈ [OperationStatus.Succeeded, OperationStatus.Failed,
        OperationStatus.DownloadFailed, OperationStatus.VerificationFailed,
        OperationStatus.InstallationFailed, OperationStatus.Cancelled,
        OperationStatus.NotEnoughStorage]) ∧
    (∀ st : OperationStatus, st.completed = false ↔
      st ∈ [OperationStatus.NotStarted, OperationStatus.Downloading,
        OperationStatus.Downloaded, OperationStatus.Verifying,
        OperationStatus.Unknown]) := by
  have hnew : OperationStatus.new s = OperationStatus.Unknown := by
    unfold OperationStatus.new
    split <;> simp_all
  refine ⟨hnew, by rw [hnew]; rfl, ?_, ?_⟩
  · intro st
    cases st <;> decide
  · intro st
    cases st <;> decide

/-- Claim C7 witness: the classification theorem applied to the
unrecognized status string "Exploded". -/
theorem operation_status_classification_witness :
    "Exploded" ∉ ["Succeeded", "Failed", "NotStarted", "Downloading",
      "Downloaded", "DownloadFailed", "Verifying", "VerificationFailed",
      "InstallationFailed", "Cancelled", "NotEnoughStorage", "Unknown"] ∧
    (OperationStatus.new "Exploded" = OperationStatus.Unknown ∧
    (OperationStatus.new "Exploded").completed = false ∧
    (∀ st : OperationStatus, st.completed = true ↔
      st ∈ [OperationStatus.Succeeded, OperationStatus.Failed,
        OperationStatus.DownloadFailed, OperationStatus.VerificationFailed,
        OperationStatus.InstallationFailed, OperationStatus.Cancelled,
        OperationStatus.NotEnoughStorage]) ∧
    (∀ st : OperationStatus, st.completed = false ↔
      st ∈ [OperationStatus.NotStarted, OperationStatus.Downloading,
        OperationStatus.Downloaded, OperationStatus.Verifying,
        OperationStatus.Unknown])) :=
  ⟨by decide, operation_status_classification "Exploded" (by decide)⟩

theorem hrun_entry_iff (h : String) (t0 : ActiveOperations)
    (hEmpty : tableGet t0 h = none) (tr : List HEvent) :
    (tableGet (hrun h t0 tr) h).isSome = true ↔
      ∃ pre op, tr = pre ++ [HEvent.signal op] ∧
        tableGet (hrun h t0 pre) h = none := by
  induction tr using List.reverseRecOn with
  | nil =>
    simp only [hrun, List.foldl_nil]
    rw [hEmpty]
    constructor
    · intro hcontra
      simp at hcontra
    · rintro ⟨pre, op, heq, -⟩
      exact absurd heq (by simp)
  | append_singleton l a ih =>
    rw [hrun_append_one]
    cases a with
    | timeout =>
      constructor
      · intro hcontra
        rw [show hstep h (hrun h t0 l) HEvent.timeout =
            (start_operation_timer_expiry (hrun h t0 l) h).1 from rfl,
          expiry_get_self] at hcontra
        simp at hcontra
      · rintro ⟨pre, op, heq, -⟩
        have := (List.append_inj' heq rfl).2
        simp at this
    | signal op =>
      by_cases hp : (tableGet (hrun h t0 l) h).isSome = true
      · rw [show hstep h (hrun h t0 l) (HEvent.signal op) =
            (add_or_remove_operation (hrun h t0 l) h op).1 from rfl,
          add_or_remove_get_self_some _ h op hp]
        constructor
        · intro hcontra
          simp at hcontra
        · rintro ⟨pre, op', heq, hpre⟩
          have hll := (List.append_inj' heq rfl).1
          rw [← hll] at hpre
          rw [hpre] at hp
          simp at hp
      · have hn : tableGet (hrun h t0 l) h = none := by
          cases e : tableGet (hrun h t0 l) h
          · rfl
          · rw [e] at hp
            simp at hp
        rw [show hstep h (hrun h t0 l) (HEvent.signal op) =
            (add_or_remove_operation (hrun h t0 l) h op).1 from rfl,
          add_or_remove_get_self_none _ h op hn]
        constructor
        · intro _
          exact ⟨l, op, rfl, hn⟩
        · intro _
          rfl

/-- Claim C2: state-machine invariant of the engine. Over traces of
completion signals and timeout firings for handle `h`, starting from a
table with no entry for `h`: the table contains an entry for `h` iff
exactly one signal for `h` has been observed since the table was last
empty for `h` and neither a second signal nor the timeout has occurred
since (i.e. the trace ends with one signal that arrived at an
empty-for-`h` table); and once a further signal arrives or the timeout
fires from a state holding the entry, no entry for `h` exists. -/
theorem engine_state_machine_invariant (h : String) (t0 : ActiveOperations)
    (hEmpty : tableGet t0 h = none) (tr : List HEvent) :
    ((tableGet (hrun h t0 tr) h).isSome = true ↔
      ∃ pre op, tr = pre ++ [HEvent.signal op] ∧
        tableGet (hrun h t0 pre) h = none) ∧
    (∀ e : HEvent, (tableGet (hrun h t0 tr) h).isSome = true →
      tableGet (hrun h t0 (tr ++ [e])) h = none) := by
  refine ⟨hrun_entry_iff h t0 hEmpty tr, ?_⟩
  intro e hp
  rw [hrun_append_one]
  cases e with
  | signal op => exact add_or_remove_get_self_some _ h op hp
  | timeout => exact expiry_get_self _ h

/-- Claim C2 witness: the invariant theorem applied to the empty table:
after one signal for "H1" the entry is present; after the signal and a
timeout no entry remains. -/
theorem engine_state_machine_invariant_witness :
    tableGet [] "H1" = none ∧
    (tableGet (hrun "H1" []
      [HEvent.signal
        (Operation.new AppsOperationType.Install "app1" (AppData.new "1.0"))])
      "H1").isSome = true ∧
    tableGet (hrun "H1" []
      ([HEvent.signal
        (Operation.new AppsOperationType.Install "app1" (AppData.new "1.0"))] ++
        [HEvent.timeout])) "H1" = none := by
  have hpresent := (engine_state_machine_invariant "H1" [] rfl
    [HEvent.signal
      (Operation.new AppsOperationType.Install "app1" (AppData.new "1.0"))]).1.mpr
    ⟨[], Operation.new AppsOperationType.Install "app1" (AppData.new "1.0"),
      rfl, rfl⟩
  exact ⟨rfl, hpresent,
    (engine_state_machine_invariant "H1" [] rfl
      [HEvent.signal
        (Operation.new AppsOperationType.Install "app1" (AppData.new "1.0"))]).2
      HEvent.timeout hpresent⟩

/-- Claim C4: coalescing. When an install operation for the same app id
and version is already in the active-operations table, `install_app`
responds with the existing handle found by `operation_in_progress`,
issues no device call, and leaves the table unchanged; `uninstall_app`
behaves symmetrically for an in-progress uninstall. -/
theorem install_uninstall_coalescing (t : ActiveOperations)
    (app : AppMetadata) (iapp : InstalledApp) (hI hU : String)
    (resp1 resp2 : Json)
    (hInstall : operation_in_progress t AppsOperationType.Install
      app.id app.version = some hI)
    (hUninstall : operation_in_progress t AppsOperationType.Uninstall
      iapp.id iapp.version = some hU) :
    install_app t app resp1 = (ExtnResponse.String hI, t, []) ∧
    uninstall_app t iapp resp2 = (ExtnResponse.String hU, t, []) := by
  constructor
  · unfold install_app
    rw [hInstall]
  · unfold uninstall_app
    rw [hUninstall]

/-- Claim C4 witness: the coalescing theorem applied to a table already
tracking an install of app1@1.0 under "H1" and an uninstall of app2@2.0
under "H2". -/
theorem install_uninstall_coalescing_witness :
    (operation_in_progress
        [("H1", Operation.new AppsOperationType.Install "app1" (AppData.new "1.0")),
          ("H2", Operation.new AppsOperationType.Uninstall "app2" (AppData.new "2.0"))]
        AppsOperationType.Install "app1" "1.0" = some "H1" ∧
      operation_in_progress
        [("H1", Operation.new AppsOperationType.Install "app1" (AppData.new "1.0")),
          ("H2", Operation.new AppsOperationType.Uninstall "app2" (AppData.new "2.0"))]
        AppsOperationType.Uninstall "app2" "2.0" = some "H2") ∧
    (install_app
        [("H1", Operation.new AppsOperationType.Install "app1" (AppData.new "1.0")),
          ("H2", Operation.new AppsOperationType.Uninstall "app2" (AppData.new "2.0"))]
        ⟨"app1", "1.0", "uri1", "App One"⟩ Json.null =
      (ExtnResponse.String "H1",
        [("H1", Operation.new AppsOperationType.Install "app1" (AppData.new "1.0")),
          ("H2", Operation.new AppsOperationType.Uninstall "app2" (AppData.new "2.0"))],
        []) ∧
    uninstall_app
        [("H1", Operation.new AppsOperationType.Install "app1" (AppData.new "1.0")),
          ("H2", Operation.new AppsOperationType.Uninstall "app2" (AppData.new "2.0"))]
        ⟨"app2", "2.0"⟩ Json.null =
      (ExtnResponse.String "H2",
        [("H1", Operation.new AppsOperationType.Install "app1" (AppData.new "1.0")),
          ("H2", Operation.new AppsOperationType.Uninstall "app2" (AppData.new "2.0"))],
        [])) :=
  ⟨⟨rfl, rfl⟩, install_uninstall_coalescing
    [("H1", Operation.new AppsOperationType.Install "app1" (AppData.new "1.0")),
      ("H2", Operation.new AppsOperationType.Uninstall "app2" (AppData.new "2.0"))]
    ⟨"app1", "1.0", "uri1", "App One"⟩ ⟨"app2", "2.0"⟩ "H1" "H2"
    Json.null Json.null rfl rfl⟩

/-- Claim C8: event isolation. Processing a status-event message whose
payload is not a JSON object, or whose `operation` field does not parse
as install/uninstall, or whose status is non-terminal, leaves the
active-operations table exactly as it was and the listener loop
continues with the remaining messages. -/
theorem listener_event_isolation (t : ActiveOperations) (msg : Json)
    (hcond : match msg with
      | Json.obj m =>
        AppsOperationType.from_str (get_string_field m "operation") = none ∨
          (OperationStatus.new (get_string_field m "status")).completed = false
      | _ => True) :
    process_message t msg = (t, []) ∧
    ∀ rest, run_listener t (msg :: rest) = run_listener t rest := by
  have hp : process_message t msg = (t, []) := by
    cases msg with
    | obj m =>
      simp only [process_message]
      cases hop : AppsOperationType.from_str (get_string_field m "operation") with
      | none => rfl
      | some oty =>
        rcases hcond with h1 | h2
        · exact absurd (hop.symm.trans h1) (by simp)
        · simp only [h2]
          rfl
    | null => rfl
    | bool b => rfl
    | str s => rfl
    | num n => rfl
    | arr xs => rfl
  refine ⟨hp, fun rest => ?_⟩
  show run_listener (process_message t msg).1 rest = run_listener t rest
  rw [hp]

/-- Claim C8 witness: the isolation theorem applied to a table tracking
"H1" and a status event with unknown operation "explode": the entry for
"H1" is untouched and the loop moves on. -/
theorem listener_event_isolation_witness :
    AppsOperationType.from_str (get_string_field
      [("operation", Json.str "explode"), ("handle", Json.str "H2"),
        ("status", Json.str "Succeeded")] "operation") = none ∧
    (process_message
        [("H1", Operation.new AppsOperationType.Install "app1" (AppData.new "1.0"))]
        (Json.obj [("operation", Json.str "explode"), ("handle", Json.str "H2"),
          ("status", Json.str "Succeeded")]) =
      ([("H1", Operation.new AppsOperationType.Install "app1" (AppData.new "1.0"))],
        []) ∧
    run_listener
        [("H1", Operation.new AppsOperationType.Install "app1" (AppData.new "1.0"))]
        [Json.obj [("operation", Json.str "explode"), ("handle", Json.str "H2"),
          ("status", Json.str "Succeeded")]] =
      run_listener
        [("H1", Operation.new AppsOperationType.Install "app1" (AppData.new "1.0"))]
        []) := by
  have hiso := listener_event_isolation
    [("H1", Operation.new AppsOperationType.Install "app1" (AppData.new "1.0"))]
    (Json.obj [("operation", Json.str "explode"), ("handle", Json.str "H2"),
      ("status", Json.str "Succeeded")])
    (Or.inl (by decide))
  exact ⟨by decide, hiso.1, hiso.2 []⟩

/-- Claim C9: decode failures yield a processor error. Whenever a
device-call response fails to decode into the expected shape — the
installed-apps list in `get_apps_list`, the handle string in
`install_app`/`uninstall_app`, or (in `get_firebolt_permissions`) the
installed-apps list, the `ThunderAppMetadata`, or the base64/JSON
permission blob of the "firebolt" resource — the requester receives
`Error(ProcessorError)`, and in the install/uninstall case the table is
unchanged and no entry is added. -/
theorem decode_failure_processor_error :
    (∀ resp : Json, decodeInstalledApps resp = none →
      get_apps_list resp = ExtnResponse.Error RippleError.ProcessorError) ∧
    (∀ (t : ActiveOperations) (app : AppMetadata) (resp : Json),
      operation_in_progress t AppsOperationType.Install app.id app.version = none →
      decodeString resp = none →
      install_app t app resp =
        (ExtnResponse.Error RippleError.ProcessorError, t,
          [Effect.deviceInstallCall])) ∧
    (∀ (t : ActiveOperations) (iapp : InstalledApp) (resp : Json),
      operation_in_progress t AppsOperationType.Uninstall iapp.id iapp.version = none →
      decodeString resp = none →
      uninstall_app t iapp resp =
        (ExtnResponse.Error RippleError.ProcessorError, t,
          [Effect.deviceUninstallCall])) ∧
    (∀ (b64 : String → Option String)
      (pp : String → Option FireboltPermissions)
      (app_id : String) (apps_resp meta_resp : Json),
      decodeInstalledApps apps_resp = none →
      get_firebolt_permissions b64 pp app_id apps_resp meta_resp =
        ExtnResponse.Error RippleError.ProcessorError) ∧
    (∀ (b64 : String → Option String)
      (pp : String → Option FireboltPermissions)
      (app_id : String) (apps_resp meta_resp : Json),
      decodeThunderAppMetadata meta_resp = none →
      get_firebolt_permissions b64 pp app_id apps_resp meta_resp =
        ExtnResponse.Error RippleError.ProcessorError) ∧
    (∀ (b64 : String → Option String)
      (pp : String → Option FireboltPermissions)
      (app_id : String) (apps_resp meta_resp : Json)
      (md : ThunderAppMetadata) (r : KeyValuePair),
      decodeThunderAppMetadata meta_resp = some md →
      md.resources.find? (fun resource => resource.key == "firebolt") = some r →
      decode_permissions b64 pp r.value = none →
      get_firebolt_permissions b64 pp app_id apps_resp meta_resp =
        ExtnResponse.Error RippleError.ProcessorError) := by
  refine ⟨?_, ?_, ?_, ?_, ?_, ?_⟩
  · intro resp hd
    unfold get_apps_list
    rw [hd]
  · intro t app resp hip hd
    unfold install_app
    rw [hip, hd]
  · intro t iapp resp hip hd
    unfold uninstall_app
    rw [hip, hd]
  · intro b64 pp app_id apps_resp meta_resp happs
    simp only [get_firebolt_permissions, get_apps_list, happs]
  · intro b64 pp app_id apps_resp meta_resp hmeta
    unfold get_firebolt_permissions
    split
    · split
      · rfl
      · rw [hmeta]
    · rfl
  · intro b64 pp app_id apps_resp meta_resp md r hmeta hfind hdp
    unfold get_firebolt_permissions
    split
    · split
      · rfl
      · rw [hmeta]
        simp only [hfind, hdp]
    · rfl

/-- Claim C9 witness: the decode-failure theorem applied with `null`
device responses (which decode as neither an installed-apps list, a
handle string, nor metadata), and with failing base64/JSON decoders on a
well-formed metadata response carrying a "firebolt" resource. -/
theorem decode_failure_processor_error_witness :
    (decodeInstalledApps Json.null = none ∧
      decodeString Json.null = none ∧
      operation_in_progress [] AppsOperationType.Install "app1" "1.0" = none ∧
      operation_in_progress [] AppsOperationType.Uninstall "app2" "2.0" = none ∧
      decodeThunderAppMetadata Json.null = none) ∧
    (get_apps_list Json.null = ExtnResponse.Error RippleError.ProcessorError ∧
    install_app [] ⟨"app1", "1.0", "uri1", "App One"⟩ Json.null =
      (ExtnResponse.Error RippleError.ProcessorError, [],
        [Effect.deviceInstallCall]) ∧
    uninstall_app [] ⟨"app2", "2.0"⟩ Json.null =
      (ExtnResponse.Error RippleError.ProcessorError, [],
        [Effect.deviceUninstallCall]) ∧
    get_firebolt_permissions (fun _ => none) (fun _ => none) "app1"
      Json.null Json.null = ExtnResponse.Error RippleError.ProcessorError ∧
    get_firebolt_permissions (fun _ => none) (fun _ => none) "app1"
      (Json.arr []) Json.null = ExtnResponse.Error RippleError.ProcessorError ∧
    get_firebolt_permissions (fun _ => none) (fun _ => none) "app1"
      (Json.arr [])
      (Json.obj [("metadata", Json.obj [("appname", Json.str "a"),
          ("type", Json.str "t"), ("url", Json.str "u")]),
        ("resources", Json.arr [Json.obj [("key", Json.str "firebolt"),
          ("value", Json.str "blob")]])]) =
      ExtnResponse.Error RippleError.ProcessorError) := by
  refine ⟨⟨rfl, rfl, rfl, rfl, rfl⟩, ?_, ?_, ?_, ?_, ?_, ?_⟩
  · exact decode_failure_processor_error.1 Json.null rfl
  · exact decode_failure_processor_error.2.1 [] ⟨"app1", "1.0", "uri1", "App One"⟩
      Json.null rfl rfl
  · exact decode_failure_processor_error.2.2.1 [] ⟨"app2", "2.0"⟩ Json.null rfl rfl
  · exact decode_failure_processor_error.2.2.2.1 (fun _ => none) (fun _ => none)
      "app1" Json.null Json.null rfl
  · exact decode_failure_processor_error.2.2.2.2.1 (fun _ => none) (fun _ => none)
      "app1" (Json.arr []) Json.null rfl
  · exact decode_failure_processor_error.2.2.2.2.2 (fun _ => none) (fun _ => none)
      "app1" (Json.arr [])
      (Json.obj [("metadata", Json.obj [("appname", Json.str "a"),
          ("type", Json.str "t"), ("url", Json.str "u")]),
        ("resources", Json.arr [Json.obj [("key", Json.str "firebolt"),
          ("value", Json.str "blob")]])])
      ⟨⟨"a", "t", "u"⟩, [⟨"firebolt", "blob"⟩]⟩ ⟨"firebolt", "blob"⟩
      rfl rfl rfl

/-- Claim C10: payload round-trip. For each of the four typed message
contracts — `DiscoveryRequest`, `MediaEventRequest`, `TelemetryPayload`,
`OperationalMetricRequest` — decoding the encoded payload returns the
original value. -/
theorem extn_payload_roundtrip :
    (∀ x : DiscoveryRequest,
      DiscoveryRequest.get_from_payload (DiscoveryRequest.get_extn_payload x) =
        some x) ∧
    (∀ x : MediaEventRequest,
      MediaEventRequest.get_from_payload (MediaEventRequest.get_extn_payload x) =
        some x) ∧
    (∀ x : TelemetryPayload,
      TelemetryPayload.get_from_payload (TelemetryPayload.get_extn_payload x) =
        some x) ∧
    (∀ x : OperationalMetricRequest,
      OperationalMetricRequest.get_from_payload
        (OperationalMetricRequest.get_extn_payload x) = some x) :=
  ⟨fun _ => rfl, fun _ => rfl, fun _ => rfl, fun _ => rfl⟩

end Ripple
